import Mathlib

/-!
# Verification of the Analysis Orchestration & Normalization Core

A shallow embedding, in Lean 4, of the analysis pipeline of the
`AI_NurtureNote` repository (files `app/analysis.py` and
`app/analysis_normalization.py`), together with proofs of the behavioural
properties stated in the project's specification.

Python values flowing through the normalizer are modelled by the inductive
type `PyVal` (`None`, booleans, integers, strings, lists, tuples and
string-keyed dicts).  Dicts are modelled as association lists with unique
keys looked up by first match; value equality is structural.  Pure Python
functions are translated function-by-function; the effectful orchestration
code (`request_analysis`, `persist_model_response`) is translated into pure
state-passing form, with the network calls and the filesystem abstracted as
oracle parameters and with the observable effects (protocol invocations,
audit writes) returned as explicit event traces.
-/

/-- Model of the Python values handled by the normalizer. -/
inductive PyVal where
  | none
  | bool (b : Bool)
  | int (n : Int)
  | str (s : String)
  | list (items : List PyVal)
  | tuple (items : List PyVal)
  | dict (entries : List (String × PyVal))

mutual

/-- Structural equality test on modelled Python values. -/
def pyValBeq : PyVal → PyVal → Bool
  | .none, .none => true
  | .bool a, .bool b => a == b
  | .int a, .int b => a == b
  | .str a, .str b => a == b
  | .list a, .list b => pyValListBeq a b
  | .tuple a, .tuple b => pyValListBeq a b
  | .dict a, .dict b => pyValEntriesBeq a b
  | _, _ => false

def pyValListBeq : List PyVal → List PyVal → Bool
  | [], [] => true
  | a :: as, b :: bs => pyValBeq a b && pyValListBeq as bs
  | _, _ => false

def pyValEntriesBeq : List (String × PyVal) → List (String × PyVal) → Bool
  | [], [] => true
  | (k₁, v₁) :: as, (k₂, v₂) :: bs =>
      k₁ == k₂ && pyValBeq v₁ v₂ && pyValEntriesBeq as bs
  | _, _ => false

end

/-- Membership of a value in a list of values (Python `in`). -/
def pyMem (v : PyVal) (l : List PyVal) : Bool :=
  l.any fun u => pyValBeq u v

/-- Python truthiness (`bool(v)`) for the modelled values. -/
def pyTruthy : PyVal → Bool
  | .none => false
  | .bool b => b
  | .int n => n != 0
  | .str s => !s.isEmpty
  | .list items => !items.isEmpty
  | .tuple items => !items.isEmpty
  | .dict entries => !entries.isEmpty

mutual

/-- Python `repr(v)` (strings quoted; escaping inside `repr` is not
modelled, as no claim depends on it). -/
def pyRepr : PyVal → String
  | .none => "None"
  | .bool b => if b then "True" else "False"
  | .int n => toString n
  | .str s => "'" ++ s ++ "'"
  | .list items => "[" ++ pyReprSeq items ++ "]"
  | .tuple items => "(" ++ pyReprTuple items ++ ")"
  | .dict entries => "\x7b" ++ pyReprEntries entries ++ "\x7d"

def pyReprSeq : List PyVal → String
  | [] => ""
  | [x] => pyRepr x
  | x :: xs => pyRepr x ++ ", " ++ pyReprSeq xs

def pyReprTuple : List PyVal → String
  | [] => ""
  | [x] => pyRepr x ++ ","
  | x :: xs => pyRepr x ++ ", " ++ pyReprTuple xs

def pyReprEntries : List (String × PyVal) → String
  | [] => ""
  | [(k, v)] => "'" ++ k ++ "': " ++ pyRepr v
  | (k, v) :: xs => "'" ++ k ++ "': " ++ pyRepr v ++ ", " ++ pyReprEntries xs

end

/-- Python `str(v)`: identity on strings, `repr` rendering otherwise. -/
def pyStr : PyVal → String
  | .str s => s
  | v => pyRepr v

/-- First-match lookup in a modelled dict (`d[k]` when the key exists). -/
def pyLookup : List (String × PyVal) → String → Option PyVal
  | [], _ => Option.none
  | (k₀, v₀) :: rest, k => if k₀ = k then some v₀ else pyLookup rest k

/-- Python `d.get(k)` — `None` when the key is absent. -/
def pyGet (d : List (String × PyVal)) (k : String) : PyVal :=
  (pyLookup d k).getD .none

/-- Python `d.get(k1, d.get(k2))`. -/
def pyGet2 (d : List (String × PyVal)) (k₁ k₂ : String) : PyVal :=
  (pyLookup d k₁).getD (pyGet d k₂)

/-- Python `k in d` for dicts. -/
def pyHasKey (d : List (String × PyVal)) (k : String) : Bool :=
  d.any fun e => e.1 = k

/-- Python dict assignment `d[k] = v`: overwrite in place, else append. -/
def dictSet : List (String × PyVal) → String → PyVal → List (String × PyVal)
  | [], k, v => [(k, v)]
  | (k₀, v₀) :: rest, k, v =>
      if k₀ = k then (k, v) :: rest else (k₀, v₀) :: dictSet rest k v

/-- Python `d.setdefault(k, v)` (result dict only). -/
def dictSetdefault (d : List (String × PyVal)) (k : String) (v : PyVal) :
    List (String × PyVal) :=
  if pyHasKey d k then d else d ++ [(k, v)]

/-- Python `a or b` on values: `a` when truthy, else `b`. -/
def pyOr (a b : PyVal) : PyVal :=
  if pyTruthy a then a else b

/-- The whitespace characters removed by Python's `str.strip()`. -/
def pyWs (c : Char) : Bool :=
  c = ' ' || c = '\t' || c = '\n' || c = '\r' || c = '\x0b' || c = '\x0c'

/-- Remove trailing characters satisfying `p` (Python `rstrip`). -/
def rdropWhile (p : Char → Bool) (l : List Char) : List Char :=
  (l.reverse.dropWhile p).reverse

/-- Python `str.strip()` on a character list. -/
def pyStripL (l : List Char) : List Char :=
  rdropWhile pyWs (l.dropWhile pyWs)

/-- Python `str.strip()`. -/
def pyStrip (s : String) : String :=
  ⟨pyStripL s.data⟩

/-- Python `str.strip(chars)`: remove characters of `cs` from both ends. -/
def stripSet (cs : List Char) (s : String) : String :=
  ⟨rdropWhile (cs.contains ·) (s.data.dropWhile (cs.contains ·))⟩

/-- Python `str.rstrip(chars)`. -/
def rstripSet (cs : List Char) (s : String) : String :=
  ⟨rdropWhile (cs.contains ·) s.data⟩

/-- The fixed default disclaimer constant (`config.DISCLAIMER`). -/
def DISCLAIMER : String := "의료 진단이 아닌 일반 정보입니다."

/-- Backward scan of `extract_trailing_parenthetical`
(`analysis_normalization.py`, lines 15-29): walk the reversed character
list tracking paren depth (`+1` on `)`, `-1` on `(`); answer the offset
from the right of the first position where the depth returns to zero. -/
def etpScan : List Char → Int → Nat → Option Nat
  | [], _, _ => Option.none
  | c :: rest, depth, pos =>
    if c = ')' then etpScan rest (depth + 1) (pos + 1)
    else if c = '(' then
      if depth - 1 = 0 then some pos
      else if depth - 1 < 0 then Option.none
      else etpScan rest (depth - 1) (pos + 1)
    else etpScan rest depth (pos + 1)

/-- `extract_trailing_parenthetical` (`analysis_normalization.py`,
lines 12-29): require the text to end with `)`; split off the balanced
trailing parenthetical group when the backward depth scan finds one. -/
def extract_trailing_parenthetical (s : String) : Option (String × String) :=
  if s.data.getLast? = some ')' then
    match etpScan s.data.reverse 0 0 with
    | some pos =>
        let i := s.data.length - 1 - pos
        some (⟨s.data.take i⟩, ⟨s.data.drop i⟩)
    | Option.none => Option.none
  else Option.none

/-- One step of the right-to-left scan implementing a split on the regex
`\r?\n+` (`NEWLINE_SPLIT_PATTERN`): a separator is an optional `\r`
followed by a maximal run of `\n`.  State: current field, completed
fields to the right, and whether the character to the right was a
separator `\n`. -/
def nlStep (c : Char) :
    List Char × List (List Char) × Bool → List Char × List (List Char) × Bool
  | (cur, fields, prevNl) =>
    if c = '\n' then
      if prevNl then (cur, fields, true)
      else ([], cur :: fields, true)
    else if c = '\r' && prevNl then (cur, fields, false)
    else (c :: cur, fields, false)

/-- `NEWLINE_SPLIT_PATTERN.split` on a string. -/
def newlineSplit (s : String) : List String :=
  let r := s.data.foldr nlStep ([], [], false)
  (r.1 :: r.2.1).map fun l => ⟨l⟩

/-- `normalize_analysis_list` (`analysis_normalization.py`, lines 32-39). -/
def normalize_analysis_list : PyVal → List PyVal
  | .none => []
  | .list items => items
  | .tuple items => items
  | v => [v]

/-- `normalize_dict_items` (`analysis_normalization.py`, lines 42-53):
keep truthy dicts; wrap other truthy items whose stringified, stripped
text is non-empty as `{"text": ...}` entries. -/
def normalize_dict_items : List PyVal → List PyVal
  | [] => []
  | item :: rest =>
    if pyTruthy item then
      match item with
      | .dict e => .dict e :: normalize_dict_items rest
      | _ =>
          let t := pyStrip (pyStr item)
          if t.isEmpty then normalize_dict_items rest
          else .dict [("text", .str t)] :: normalize_dict_items rest
    else normalize_dict_items rest

/-- `normalize_disclaimer` (`analysis_normalization.py`, lines 56-62). -/
def normalize_disclaimer : PyVal → String
  | .none => DISCLAIMER
  | .list items =>
      let parts := (items.filter pyTruthy).map pyStr
      if parts.isEmpty then DISCLAIMER else String.intercalate " " parts
  | v => pyStr v

/-- The characters removed by `rstrip(" ;,.")` on a guideline prefix. -/
def tailPunct : List Char := " ;,.".data

/-- The characters removed by `.strip("() ")` on a parenthetical. -/
def parenStrip : List Char := "() ".data

/-- The mutable state of the guideline loop of `normalize_analysis_payload`
(`analysis_normalization.py`, lines 158-179): accumulated guidelines, the
source list, and the set of seen source texts (modelled as a list whose
order is irrelevant, membership being its only use). -/
structure GuidelineState where
  guidelines : List String
  sources : List PyVal
  sourceTexts : List String

/-- The split of one stripped guideline line (`analysis_normalization.py`,
lines 163-170): the final guideline text and the citation candidate. -/
def guideline_split (t0 : String) : String × Option String :=
  match extract_trailing_parenthetical t0 with
  | some (pre, par) =>
      let inner := stripSet parenStrip (pyStrip par)
      if inner.isEmpty then (t0, Option.none)
      else (pyStrip (rstripSet tailPunct pre), some inner)
  | Option.none => (t0, Option.none)

/-- Appending the citation candidate to the sources when it is non-empty
and unseen (`analysis_normalization.py`, lines 172-176). -/
def cite_update (st : GuidelineState) : Option String → GuidelineState
  | some c =>
      let cite := pyStrip c
      if !cite.isEmpty && !st.sourceTexts.contains cite then
        { st with sources := st.sources ++ [.dict [("text", .str cite)]],
                  sourceTexts := st.sourceTexts ++ [cite] }
      else st
  | Option.none => st

/-- One iteration of the guideline loop (`analysis_normalization.py`,
lines 159-179). -/
def guideline_line_step (st : GuidelineState) (line : String) : GuidelineState :=
  let t0 := pyStrip line
  if t0.isEmpty then st
  else
    let sp := guideline_split t0
    let st₁ := cite_update st sp.2
    if !sp.1.isEmpty then
      { st₁ with guidelines := st₁.guidelines ++ [sp.1] }
    else st₁

/-- Collection of raw guideline items (`analysis_normalization.py`,
lines 147-156): strings are split on newline runs, stripped and kept when
non-empty; other truthy items are stringified. -/
def rawGuidelineItems : List PyVal → List String
  | [] => []
  | item :: rest =>
    if pyTruthy item then
      match item with
      | .str s =>
          ((newlineSplit s).filterMap fun sub =>
            let t := pyStrip sub
            if t.isEmpty then Option.none else some t)
            ++ rawGuidelineItems rest
      | _ => pyStr item :: rawGuidelineItems rest
    else rawGuidelineItems rest

/-- Seen source texts harvested from the normalized sources
(`analysis_normalization.py`, lines 140-145). -/
def initialSourceTexts : List PyVal → List String
  | [] => []
  | src :: rest =>
    match src with
    | .dict sd =>
        (match pyLookup sd "text" with
          | some (.str t) =>
              if (pyStrip t).isEmpty then initialSourceTexts rest
              else pyStrip t :: initialSourceTexts rest
          | _ => initialSourceTexts rest)
    | _ => initialSourceTexts rest

/-- The `if not item: continue; append(str(item).strip())` pattern used for
the string-list fields (`analysis_normalization.py`, lines 101-121). -/
def stripItems (items : List PyVal) : List String :=
  items.filterMap fun item =>
    if pyTruthy item then some (pyStrip (pyStr item)) else Option.none

/-- Derivation of insight texts from `evidence` items
(`analysis_normalization.py`, lines 123-131). -/
def evidenceTexts (items : List PyVal) : List String :=
  items.filterMap fun ev =>
    if pyTruthy ev then
      match ev with
      | .dict ed =>
          let text :=
            pyOr (pyOr (pyGet ed "summary") (pyGet ed "text")) (pyGet ed "quote")
          if pyTruthy text then some (pyStrip (pyStr text)) else Option.none
      | _ => some (pyStrip (pyStr ev))
    else Option.none

/-- A canonical string-list field value. -/
def strListVal (l : List String) : PyVal :=
  .list (l.map .str)

/-- The canonical empty result (`analysis_normalization.py`, lines 80-87). -/
def emptyAnalysis : PyVal :=
  .dict [("maternal_feedback", .list []),
         ("child_development_insights", .list []),
         ("parenting_guidelines", .list []),
         ("sources", .list []),
         ("disclaimer", .str DISCLAIMER)]

/-- `normalize_analysis_payload` (`analysis_normalization.py`,
lines 65-187). -/
def normalize_analysis_payload : PyVal → PyVal
  | .none => emptyAnalysis
  | .dict d =>
      let maternal_feedback :=
        stripItems (normalize_analysis_list (pyGet2 d "maternal_feedback" "observations"))
      let child_development_insights :=
        if pyHasKey d "child_development_insights" then
          stripItems (normalize_analysis_list (pyGet d "child_development_insights"))
        else
          let legacy_obs := normalize_analysis_list (pyGet d "observations")
          if !legacy_obs.isEmpty then stripItems legacy_obs
          else evidenceTexts (normalize_analysis_list (pyGet d "evidence"))
      let normalized_sources :=
        normalize_dict_items (normalize_analysis_list (pyGet2 d "sources" "citations"))
      let source_texts := initialSourceTexts normalized_sources
      let raw_items :=
        rawGuidelineItems (normalize_analysis_list (pyGet2 d "parenting_guidelines" "advice"))
      let final := raw_items.foldl guideline_line_step ⟨[], normalized_sources, source_texts⟩
      .dict [("maternal_feedback", strListVal maternal_feedback),
             ("child_development_insights", strListVal child_development_insights),
             ("parenting_guidelines", strListVal final.guidelines),
             ("sources", .list final.sources),
             ("disclaimer", .str (normalize_disclaimer (pyGet d "disclaimer")))]
  | data =>
      .dict [("maternal_feedback", .list [.str (pyStr data)]),
             ("child_development_insights", .list []),
             ("parenting_guidelines", .list []),
             ("sources", .list []),
             ("disclaimer", .str DISCLAIMER)]

/-- The triple-backtick fence marker. -/
def fenceMarker : List Char := ['`', '`', '`']

/-- Index of the last occurrence of the fence marker (Python `rfind`). -/
def lastFenceIdx (l : List Char) : Option Nat :=
  ((List.range (l.length + 1)).filter fun i =>
    fenceMarker.isPrefixOf (l.drop i)).getLast?

/-- `_strip_code_fence` (`analysis.py`, lines 493-507): trim; when the text
begins with a fence, drop the first line and everything from the last
fence marker onward; trim the remainder. -/
def strip_code_fence (s : String) : String :=
  let stripped := pyStripL s.data
  if fenceMarker.isPrefixOf stripped then
    let body₀ := stripped.drop 3
    let body₁ :=
      match body₀.findIdx? (· = '\n') with
      | some i => body₀.drop (i + 1)
      | Option.none => body₀
    let body₂ :=
      match lastFenceIdx body₁ with
      | some i => body₁.take i
      | Option.none => body₁
    ⟨pyStripL body₂⟩
  else ⟨stripped⟩

/-- The url keys of the dict-shaped entries of a source list
(`by_url` in `analysis.py`, line 237). -/
def sourceUrlKeys (srcs : List PyVal) : List PyVal :=
  srcs.filterMap fun s =>
    match s with
    | .dict sd => some (pyGet sd "url")
    | _ => Option.none

/-- The annotation-source merge of `call_responses_api` (`analysis.py`,
lines 236-241): append each annotation source whose `url` is truthy and
not among the url keys of the existing sources; the url-key set is
computed once, before the loop. -/
def mergeAnnSources (srcs : List PyVal)
    (ann : List (List (String × PyVal))) : List PyVal :=
  let by_url := sourceUrlKeys srcs
  srcs ++ (ann.filter fun src =>
    pyTruthy (pyGet src "url") && !pyMem (pyGet src "url") by_url).map .dict

/-- Snapshot of one diary entry (`models.EntryRecord` as read by the
analysis code). -/
structure EntryRecord where
  id : Int
  created_at : String
  mood : String
  body : String

/-- `serialize_entries` (`analysis.py`, lines 333-338). -/
def serialize_entries (entries : List EntryRecord) : String :=
  String.intercalate "\n" (entries.map fun e =>
    let snippet := pyStrip ⟨e.body.data.map fun c => if c = '\n' then ' ' else c⟩
    e.created_at ++ " | " ++ e.mood ++ " | " ++ snippet)

/-- An `HTTPException` raised by a protocol client or the orchestrator. -/
structure HTTPError where
  status : Nat
  detail : String
deriving DecidableEq

/-- The outcome of one filesystem write attempt in the audit recorder:
created the file, name collision (`FileExistsError`), or any other
I/O failure. -/
inductive WriteResult where
  | success
  | collision
  | ioError
deriving DecidableEq

/-- Observable outcome of `persist_model_response`: whether a record was
written, and how many filenames were tried.  The function always returns
normally; failures are logged, never raised. -/
structure PersistOutcome where
  persisted : Bool
  attempts : Nat
deriving DecidableEq

/-- The retry loop of `persist_model_response` (`analysis.py`,
lines 365-390): up to `fuel` attempts, numbered from `k`; a collision
retries with a fresh name, any other failure aborts immediately. -/
def persistLoop (fs : Nat → WriteResult) : Nat → Nat → PersistOutcome
  | 0, k => ⟨false, k⟩
  | n + 1, k =>
    match fs k with
    | .success => ⟨true, k + 1⟩
    | .collision => persistLoop fs n (k + 1)
    | .ioError => ⟨false, k + 1⟩

/-- `persist_model_response` (`analysis.py`, lines 341-390), with the
filesystem abstracted as an oracle giving each attempt's outcome. -/
def persist_model_response (fs : Nat → WriteResult) : PersistOutcome :=
  persistLoop fs 10 0

/-- A protocol invocation recorded in the orchestration trace. -/
inductive ProtocolCall where
  | responses
  | assistants
deriving DecidableEq

/-- One audit write delegated to `persist_model_response`, with the
arguments the orchestrator passes it. -/
structure PersistCall where
  entries : List EntryRecord
  question : String
  payload : PyVal
  meta : List (String × PyVal)

/-- The observable outcome of `request_analysis`: the returned value or
surfaced error, the protocol calls made, and the audit writes issued. -/
structure AnalysisOutcome where
  result : Except HTTPError PyVal
  calls : List ProtocolCall
  persists : List PersistCall

/-- The canned default question of `request_analysis` (`analysis.py`,
lines 406-408). -/
def DEFAULT_QUESTION : String := "최근 기록을 바탕으로 도움이 될 일반 조언을 알려줘."

/-- `(question or DEFAULT).strip()` (`analysis.py`, lines 406-408). -/
def effectiveQuestion : Option String → String
  | some q => pyStrip (if q.isEmpty then DEFAULT_QUESTION else q)
  | Option.none => pyStrip DEFAULT_QUESTION

/-- Python `d.get(k1, d.get(k2, dflt))`. -/
def pyGet2D (d : List (String × PyVal)) (k₁ k₂ : String) (dflt : PyVal) : PyVal :=
  (pyLookup d k₁).getD ((pyLookup d k₂).getD dflt)

/-- The `payload_with_disclaimer` reshaping (`analysis.py`,
lines 470-477), defined on dict payloads. -/
def payload_with_disclaimer (pd : List (String × PyVal)) : PyVal :=
  .dict [("maternal_feedback", pyGet2D pd "maternal_feedback" "observations" (.list [])),
         ("child_development_insights",
           pyGet2D pd "child_development_insights" "observations" (.list [])),
         ("parenting_guidelines", pyGet2D pd "parenting_guidelines" "advice" (.list [])),
         ("sources", pyGet2D pd "sources" "citations" (.list [])),
         ("disclaimer", (pyLookup pd "disclaimer").getD (.str DISCLAIMER))]

/-- The effective web-search decision (`analysis.py`, lines 435-437):
the explicit override wins, else the feature flag. -/
def use_ws_effective (use_web_search : Option Bool) (webSearchFlag : Bool) : Bool :=
  use_web_search.getD webSearchFlag

/-- Metadata assembled after a successful Responses call (`analysis.py`,
lines 441-446). -/
def buildMetaA (metadata : Option (List (String × PyVal)))
    (use_web_search : Option Bool) (allowedDomains : List String) :
    List (String × PyVal) :=
  let m := dictSetdefault (metadata.getD []) "engine" (.str "responses")
  let m := dictSet m "web_search_enabled" (.bool true)
  let m :=
    match use_web_search with
    | some b => dictSet m "user_web_search_override" (.bool b)
    | Option.none => m
  dictSet m "allowed_domains" (.list (allowedDomains.map .str))

/-- Metadata assembled after the fallback to the Assistants path
(`analysis.py`, lines 454-459). -/
def buildMetaFallback (metadata : Option (List (String × PyVal)))
    (use_web_search : Option Bool) : List (String × PyVal) :=
  let m := dictSetdefault (metadata.getD []) "engine" (.str "assistants")
  let m := dictSet m "web_search_enabled" (.bool false)
  let m :=
    match use_web_search with
    | some b => dictSet m "user_web_search_override" (.bool b)
    | Option.none => m
  dictSet m "fallback_from_responses" (.bool true)

/-- Metadata assembled on the direct Assistants path (`analysis.py`,
lines 463-467). -/
def buildMetaB (metadata : Option (List (String × PyVal)))
    (use_web_search : Option Bool) : List (String × PyVal) :=
  let m := dictSetdefault (metadata.getD []) "engine" (.str "assistants")
  let m := dictSet m "web_search_enabled" (.bool false)
  match use_web_search with
  | some b => dictSet m "user_web_search_override" (.bool b)
  | Option.none => m

/-- `request_analysis` (`analysis.py`, lines 393-490).  The two protocol
clients are abstracted as oracles `respA` (`call_responses_api`) and
`respB` (`call_assistants_api`) giving the parsed payload or the raised
`HTTPException`; `webSearchFlag` abstracts `is_web_search_enabled()` and
`allowedDomains` abstracts `get_allowed_web_domains()`.  A non-dict
payload makes `payload.get` raise, which the outer handler converts into
a 502 in strict mode and into the empty result in best-effort mode. -/
def request_analysis (entries : List EntryRecord) (question : Option String)
    (use_web_search : Option Bool) (raise_on_failure : Bool)
    (metadata : Option (List (String × PyVal)))
    (webSearchFlag : Bool) (allowedDomains : List String)
    (respA respB : Except HTTPError PyVal) : AnalysisOutcome :=
  if entries.isEmpty then
    ⟨.ok (normalize_analysis_payload .none), [], []⟩
  else
    let user_question := effectiveQuestion question
    let step : Except HTTPError PyVal × List ProtocolCall × List PersistCall :=
      if use_ws_effective use_web_search webSearchFlag then
        match respA with
        | .ok payload =>
            let meta := buildMetaA metadata use_web_search allowedDomains
            (.ok payload, [.responses], [⟨entries, user_question, payload, meta⟩])
        | .error _ =>
            match respB with
            | .ok payload =>
                let meta := buildMetaFallback metadata use_web_search
                (.ok payload, [.responses, .assistants],
                  [⟨entries, user_question, payload, meta⟩])
            | .error e => (.error e, [.responses, .assistants], [])
      else
        match respB with
        | .ok payload =>
            let meta := buildMetaB metadata use_web_search
            (.ok payload, [.assistants], [⟨entries, user_question, payload, meta⟩])
        | .error e => (.error e, [.assistants], [])
    match step.1 with
    | .ok payload =>
        (match payload with
          | .dict pd =>
              ⟨.ok (normalize_analysis_payload (payload_with_disclaimer pd)),
                step.2.1, step.2.2⟩
          | _ =>
              if raise_on_failure then
                ⟨.error ⟨502, "Failed to generate analysis from language model."⟩,
                  step.2.1, step.2.2⟩
              else ⟨.ok (normalize_analysis_payload .none), step.2.1, step.2.2⟩)
    | .error e =>
        if raise_on_failure then ⟨.error e, step.2.1, step.2.2⟩
        else ⟨.ok (normalize_analysis_payload .none), step.2.1, step.2.2⟩

/-- Field access in a normalized result dict (statement helper). -/
def analysisField (result : PyVal) (k : String) : PyVal :=
  match result with
  | .dict entries => pyGet entries k
  | _ => .none

/-- Net paren depth of a scanned segment, in scan (right-to-left) order:
closing parens count `+1`, opening parens `-1` (statement helper for the
depth scan of `extract_trailing_parenthetical`). -/
def scanBal (l : List Char) : Int :=
  (l.countP (fun c => c = ')') : Int) - (l.countP (fun c => c = '(') : Int)

/-- A reversed trailing segment is balanced for the backward scan: the
running depth is strictly positive at every proper non-empty prefix of
the scan and returns to zero exactly when the segment is exhausted (i.e.
at the group's opening paren, its first character in string order). -/
def BalancedTrailing (rseg : List Char) : Prop :=
  scanBal rseg = 0 ∧ ∀ k, 0 < k → k < rseg.length → 0 < scanBal (rseg.take k)

/-
## Sanity checks of the embedding on concrete inputs
-/

example : pyStrip "  a b\t\n" = "a b" := by decide
example : stripSet "() ".data " (a (b) c) " = "a (b) c" := by decide
example : rstripSet " ;,.".data "do X ;,." = "do X" := by decide
example : pyGet2 [("a", .int 1)] "b" "a" = .int 1 := by rfl
example : dictSet [("a", .int 1), ("b", .int 2)] "b" .none
    = [("a", .int 1), ("b", .none)] := by rfl
example : extract_trailing_parenthetical "do X (WHO, 2020)"
    = some ("do X ", "(WHO, 2020)") := by decide
example : extract_trailing_parenthetical "value (a (b) c)"
    = some ("value ", "(a (b) c)") := by decide
example : extract_trailing_parenthetical "unbalanced (a" = Option.none := by decide
example : extract_trailing_parenthetical "a)" = Option.none := by decide
example : newlineSplit "a\n\nb\r\nc" = ["a", "b", "c"] := by decide
example : newlineSplit "a\n\r\nb" = ["a", "", "b"] := by decide
example : newlineSplit "a\r\r\nb" = ["a\r", "b"] := by decide
example : newlineSplit "" = [""] := by decide
example : normalize_analysis_payload
    (.dict [("observations", .list [.str "a"]),
            ("advice", .list [.str "do X (Org, 2019)"])])
    = .dict [("maternal_feedback", .list [.str "a"]),
             ("child_development_insights", .list [.str "a"]),
             ("parenting_guidelines", .list [.str "do X"]),
             ("sources", .list [.dict [("text", .str "Org, 2019")]]),
             ("disclaimer", .str DISCLAIMER)] := rfl
example : strip_code_fence "```json\n\x7b\"a\": 1\x7d\n```" = "\x7b\"a\": 1\x7d" := by decide
example : strip_code_fence "  plain text  " = "plain text" := by decide

/-
## Shared lemmas
-/

/-- Setting a key makes it present with the written value. -/
theorem pyLookup_dictSet_self :
    ∀ (m : List (String × PyVal)) (k : String) (v : PyVal),
      pyLookup (dictSet m k v) k = some v
  | [], k, v => by simp [dictSet, pyLookup]
  | (k₀, v₀) :: rest, k, v => by
      by_cases h : k₀ = k
      · simp [dictSet, h, pyLookup]
      · simp [dictSet, h, pyLookup, pyLookup_dictSet_self rest k v]

/-- Setting one key leaves lookups of other keys unchanged. -/
theorem pyLookup_dictSet_ne :
    ∀ (m : List (String × PyVal)) (k₀ : String) (v : PyVal) (k : String),
      k₀ ≠ k → pyLookup (dictSet m k₀ v) k = pyLookup m k
  | [], k₀, v, k, h => by simp [dictSet, pyLookup, h]
  | (k₁, v₁) :: rest, k₀, v, k, h => by
      by_cases h₁ : k₁ = k₀
      · subst h₁; simp [dictSet, pyLookup, h]
      · by_cases h₂ : k₁ = k
        · subst h₂; simp [dictSet, h₁, pyLookup]
        · simp [dictSet, h₁, pyLookup, h₂, pyLookup_dictSet_ne rest k₀ v k h]

/-- The retry loop makes at most `n` further attempts. -/
theorem persistLoop_attempts_le (fs : Nat → WriteResult) :
    ∀ (n k : Nat), (persistLoop fs n k).attempts ≤ k + n := by
  intro n
  induction n with
  | zero => intro k; simp [persistLoop]
  | succ n ih =>
      intro k
      cases h : fs k with
      | success => simp [persistLoop, h]
      | collision =>
          have h₂ := ih (k + 1)
          simp [persistLoop, h]
          omega
      | ioError => simp [persistLoop, h]

/-- Skipping an initial run of collisions. -/
theorem persistLoop_skip (fs : Nat → WriteResult) :
    ∀ (j n k : Nat), j ≤ n → (∀ m, m < j → fs (k + m) = .collision) →
      persistLoop fs n k = persistLoop fs (n - j) (k + j) := by
  intro j
  induction j with
  | zero => intro n k _ _; simp
  | succ j ih =>
      intro n k hjn hcol
      cases n with
      | zero => omega
      | succ n =>
          have h₀ : fs k = .collision := by
            have := hcol 0 (by omega)
            simpa using this
          have step : persistLoop fs (n + 1) k = persistLoop fs n (k + 1) := by
            simp [persistLoop, h₀]
          rw [step]
          have hrec := ih n (k + 1) (by omega) (fun m hm => by
            have := hcol (m + 1) (by omega)
            have e : k + (m + 1) = k + 1 + m := by omega
            rwa [e] at this)
          rw [hrec]
          have e₁ : n + 1 - (j + 1) = n - j := by omega
          have e₂ : k + (j + 1) = k + 1 + j := by omega
          rw [e₁, e₂]

/-- C8: for every call with an empty entries list, `request_analysis`
returns the canonical empty result immediately, making no protocol call
and writing no audit record. -/
theorem empty_entries_no_effects
    (question : Option String) (use_web_search : Option Bool)
    (raise_on_failure : Bool) (metadata : Option (List (String × PyVal)))
    (webSearchFlag : Bool) (allowedDomains : List String)
    (respA respB : Except HTTPError PyVal) :
    request_analysis [] question use_web_search raise_on_failure metadata
        webSearchFlag allowedDomains respA respB
      = ⟨.ok emptyAnalysis, [], []⟩ := rfl

/-- C9: the audit recorder is best-effort and total — it always returns an
outcome (it never surfaces a failure, by construction of the model) with
at most 10 filename attempts; after an initial run of `j` collisions a
success is persisted on attempt `j + 1`; a non-collision I/O failure on
attempt `j + 1` aborts immediately with exactly `j + 1` attempts; and ten
straight collisions give up after exactly 10 attempts. -/
theorem persist_best_effort_retries :
    (∀ fs : Nat → WriteResult, (persist_model_response fs).attempts ≤ 10)
    ∧ (∀ (fs : Nat → WriteResult) (j : Nat), j < 10 →
        (∀ m, m < j → fs m = .collision) → fs j = .success →
        persist_model_response fs = ⟨true, j + 1⟩)
    ∧ (∀ (fs : Nat → WriteResult) (j : Nat), j < 10 →
        (∀ m, m < j → fs m = .collision) → fs j = .ioError →
        persist_model_response fs = ⟨false, j + 1⟩)
    ∧ (∀ fs : Nat → WriteResult, (∀ m, m < 10 → fs m = .collision) →
        persist_model_response fs = ⟨false, 10⟩) := by
  refine ⟨fun fs => ?_, fun fs j hj hcol hs => ?_, fun fs j hj hcol hio => ?_,
    fun fs hcol => ?_⟩
  · have := persistLoop_attempts_le fs 10 0
    simpa [persist_model_response] using this
  · have hskip := persistLoop_skip fs j 10 0 (by omega)
      (fun m hm => by simpa using hcol m hm)
    obtain ⟨r, hr⟩ : ∃ r, 10 - j = r + 1 := ⟨10 - j - 1, by omega⟩
    rw [persist_model_response, hskip, hr]
    simp [persistLoop, hs]
  · have hskip := persistLoop_skip fs j 10 0 (by omega)
      (fun m hm => by simpa using hcol m hm)
    obtain ⟨r, hr⟩ : ∃ r, 10 - j = r + 1 := ⟨10 - j - 1, by omega⟩
    rw [persist_model_response, hskip, hr]
    simp [persistLoop, hio]
  · have hskip := persistLoop_skip fs 10 10 0 (by omega)
      (fun m hm => by simpa using hcol m hm)
    rw [persist_model_response, hskip]
    simp [persistLoop]

/-- Witness for C9: two collisions then a success persists on the third
attempt; an immediate I/O error gives up after one attempt. -/
theorem persist_best_effort_retries_witness :
    persist_model_response
        (fun k => if k < 2 then WriteResult.collision else .success)
      = ⟨true, 3⟩
    ∧ persist_model_response (fun _ => WriteResult.ioError) = ⟨false, 1⟩ := by
  constructor
  · exact persist_best_effort_retries.2.1
      (fun k => if k < 2 then WriteResult.collision else .success) 2
      (by omega) (fun m hm => by simp [hm]) (by simp)
  · exact persist_best_effort_retries.2.2.1 (fun _ => WriteResult.ioError) 0
      (by omega) (fun m hm => by omega) rfl

/-- The head of a `dropWhile` result does not satisfy the predicate. -/
theorem head?_dropWhile_not (p : Char → Bool) :
    ∀ (l : List Char) (a : Char), (l.dropWhile p).head? = some a → p a = false := by
  intro l
  induction l with
  | nil => intro a h; simp [List.dropWhile] at h
  | cons c t ih =>
      intro a h
      rw [List.dropWhile_cons] at h
      by_cases hc : p c
      · rw [if_pos hc] at h; exact ih a h
      · rw [if_neg hc] at h
        obtain rfl : c = a := by simpa using h
        simpa using hc

/-- A list whose head does not satisfy the predicate is `dropWhile`-fixed. -/
theorem dropWhile_eq_self_of_head (p : Char → Bool) (l : List Char)
    (h : ∀ a, l.head? = some a → p a = false) : l.dropWhile p = l := by
  cases l with
  | nil => rfl
  | cons c t =>
      have hc := h c rfl
      simp [List.dropWhile_cons, hc]

/-- A non-empty `dropWhile` result keeps the last element. -/
theorem getLast?_dropWhile (p : Char → Bool) (l : List Char)
    (h : l.dropWhile p ≠ []) : (l.dropWhile p).getLast? = l.getLast? := by
  obtain ⟨t, ht⟩ := List.dropWhile_suffix (l := l) p
  conv_rhs => rw [← ht]
  exact (List.getLast?_append_of_ne_nil t h).symm

/-- Python's two-sided strip is idempotent. -/
theorem pyStripL_idem (l : List Char) : pyStripL (pyStripL l) = pyStripL l := by
  unfold pyStripL rdropWhile
  set A := l.dropWhile pyWs with hA
  set B := A.reverse.dropWhile pyWs with hB
  rcases hBe : B with _ | ⟨b, B'⟩
  · simp [hBe]
  · rw [← hBe]
    have hBne : B ≠ [] := by rw [hBe]; simp
    have hfix₁ : B.reverse.dropWhile pyWs = B.reverse := by
      apply dropWhile_eq_self_of_head
      intro a ha
      rw [List.head?_reverse] at ha
      rw [hB, getLast?_dropWhile pyWs A.reverse (hB ▸ hBne),
        List.getLast?_reverse] at ha
      exact head?_dropWhile_not pyWs l a (hA ▸ ha)
    have hfix₂ : B.dropWhile pyWs = B := by
      apply dropWhile_eq_self_of_head
      intro a ha
      exact head?_dropWhile_not pyWs A.reverse a (hB ▸ ha)
    rw [hfix₁, List.reverse_reverse, hfix₂]

/-- The output of `strip_code_fence` is strip-fixed: both branches return a
stripped list. -/
theorem strip_code_fence_stripFixed (s : String) :
    pyStripL (strip_code_fence s).data = (strip_code_fence s).data := by
  unfold strip_code_fence
  by_cases h : fenceMarker.isPrefixOf (pyStripL s.data)
  · simp only [h, if_true]
    exact pyStripL_idem _
  · simp only [h, if_false]
    exact pyStripL_idem _

/-- C3 (counterexample): fence stripping is not idempotent on every
string.  When the first stripping pass leaves a remainder that itself
begins with a fence marker, a second pass strips again: here the first
pass yields `"```mid\nrest"` and the second pass yields `"rest"`. -/
theorem strip_fence_idempotent_cex :
    strip_code_fence (strip_code_fence "```lang\n```mid\nrest```end")
      ≠ strip_code_fence "```lang\n```mid\nrest```end" := by decide

/-- C3 (amended): fence stripping is idempotent on every string whose
stripped result does not itself begin with a triple-backtick marker — in
particular on all text without fences. -/
theorem strip_fence_idempotent_amended (s : String)
    (h : fenceMarker.isPrefixOf (strip_code_fence s).data = false) :
    strip_code_fence (strip_code_fence s) = strip_code_fence s := by
  have hfix := strip_code_fence_stripFixed s
  rw [strip_code_fence.eq_def]
  simp only [hfix, h, Bool.false_eq_true, if_false]

/-- Witness for C3 (amended) at a concrete fenced input. -/
theorem strip_fence_idempotent_amended_witness :
    fenceMarker.isPrefixOf (strip_code_fence "```json\nhi\n```").data = false
    ∧ strip_code_fence (strip_code_fence "```json\nhi\n```")
        = strip_code_fence "```json\nhi\n```" :=
  ⟨by decide, strip_fence_idempotent_amended "```json\nhi\n```" (by decide)⟩

/-- C5: source merging deduplicates by url identity with the first
occurrence winning.  Concretely, an existing `{"url": "http://x"}` source
makes a new candidate with the same url be dropped silently; in general
the existing sources are kept unchanged (first occurrence wins) and every
appended annotation source has a truthy url that does not occur among the
existing url keys.  Inside the normalizer the identity key for sources
extracted from trailing parentheticals is the normalized text: a
parenthetical whose text already occurs among the source texts is dropped
(third conjunct, concretely). -/
theorem source_merge_dedup :
    (mergeAnnSources [.dict [("url", .str "http://x")]]
        [[("url", .str "http://x"), ("title", .str "dup")]]
      = [.dict [("url", .str "http://x")]])
    ∧ (∀ (srcs : List PyVal) (ann : List (List (String × PyVal))),
        ∃ rest, mergeAnnSources srcs ann = srcs ++ rest ∧
          ∀ x ∈ rest, ∃ ad, x = PyVal.dict ad
            ∧ pyTruthy (pyGet ad "url") = true
            ∧ pyMem (pyGet ad "url") (sourceUrlKeys srcs) = false)
    ∧ (normalize_analysis_payload
        (.dict [("sources", .list [.dict [("text", .str "WHO, 2020")]]),
                ("advice", .list [.str "do X (WHO, 2020)"])])
      = .dict [("maternal_feedback", .list []),
               ("child_development_insights", .list []),
               ("parenting_guidelines", .list [.str "do X"]),
               ("sources", .list [.dict [("text", .str "WHO, 2020")]]),
               ("disclaimer", .str DISCLAIMER)]) := by
  refine ⟨rfl, ?_, rfl⟩
  intro srcs ann
  refine ⟨_, rfl, ?_⟩
  intro x hx
  rw [List.mem_map] at hx
  obtain ⟨ad, had, rfl⟩ := hx
  rw [List.mem_filter] at had
  have h₂ := had.2
  rw [Bool.and_eq_true] at h₂
  refine ⟨ad, rfl, h₂.1, ?_⟩
  simpa using h₂.2

/-- Witness for C5 at a concrete merge: one fresh source kept, with its
url absent from the existing keys. -/
theorem source_merge_dedup_witness :
    ∃ rest,
      mergeAnnSources [.dict [("url", .str "http://x")]]
          [[("url", .str "http://y")]]
        = [.dict [("url", .str "http://x")]] ++ rest ∧
        ∀ x ∈ rest, ∃ ad, x = PyVal.dict ad
          ∧ pyTruthy (pyGet ad "url") = true
          ∧ pyMem (pyGet ad "url")
              (sourceUrlKeys [.dict [("url", .str "http://x")]]) = false :=
  source_merge_dedup.2.1 [.dict [("url", .str "http://x")]]
    [[("url", .str "http://y")]]

/-- C7 (counterexample): the disclaimer of a normalized result can be the
empty string — an empty-string disclaimer in the payload is stringified
as-is, not replaced by the default. -/
theorem disclaimer_never_empty_cex :
    normalize_analysis_payload (.dict [("disclaimer", .str "")])
      = .dict [("maternal_feedback", .list []),
               ("child_development_insights", .list []),
               ("parenting_guidelines", .list []),
               ("sources", .list []),
               ("disclaimer", .str "")]
    ∧ ("" : String).isEmpty = true := ⟨rfl, rfl⟩

/-- C7 (amended): the disclaimer field of a normalized result is always
present and resolves as: `None` goes to the fixed default constant, a
list goes to the space-joined stringified truthy items (the default if
none survive), and any other value is stringified as-is — which may be
empty, e.g. for an empty-string disclaimer.  In particular
`{"disclaimer": None}` yields the default and `{"disclaimer": ["a","b"]}`
yields `"a b"`. -/
theorem disclaimer_resolution_amended :
    (∀ d : List (String × PyVal), ∃ v₁ v₂ v₃ v₄,
      normalize_analysis_payload (.dict d)
        = .dict [("maternal_feedback", v₁),
                 ("child_development_insights", v₂),
                 ("parenting_guidelines", v₃),
                 ("sources", v₄),
                 ("disclaimer", .str (normalize_disclaimer (pyGet d "disclaimer")))])
    ∧ normalize_disclaimer .none = DISCLAIMER
    ∧ (∀ items : List PyVal,
        normalize_disclaimer (.list items)
          = if ((items.filter pyTruthy).map pyStr).isEmpty then DISCLAIMER
            else String.intercalate " " ((items.filter pyTruthy).map pyStr))
    ∧ (∀ v : PyVal, (∀ items, v ≠ .list items) → v ≠ .none →
        normalize_disclaimer v = pyStr v)
    ∧ normalize_analysis_payload (.dict [("disclaimer", .none)])
        = .dict [("maternal_feedback", .list []),
                 ("child_development_insights", .list []),
                 ("parenting_guidelines", .list []),
                 ("sources", .list []),
                 ("disclaimer", .str DISCLAIMER)]
    ∧ normalize_analysis_payload (.dict [("disclaimer", .list [.str "a", .str "b"])])
        = .dict [("maternal_feedback", .list []),
                 ("child_development_insights", .list []),
                 ("parenting_guidelines", .list []),
                 ("sources", .list []),
                 ("disclaimer", .str "a b")] := by
  refine ⟨fun d => ⟨_, _, _, _, rfl⟩, rfl, fun items => rfl, ?_, rfl, rfl⟩
  intro v hl hn
  cases v with
  | none => exact absurd rfl hn
  | list items => exact absurd rfl (hl items)
  | bool b => rfl
  | int n => rfl
  | str s => rfl
  | tuple items => rfl
  | dict entries => rfl

/-- Witness for C7 (amended): a non-list, non-`None` disclaimer value is
stringified as-is. -/
theorem disclaimer_resolution_amended_witness :
    normalize_disclaimer (.int 3) = pyStr (.int 3) :=
  disclaimer_resolution_amended.2.2.2.1 (.int 3)
    (fun _ h => nomatch h) (fun h => nomatch h)

/-- Every entry produced by `normalize_dict_items` is a dict. -/
theorem normalize_dict_items_dicts :
    ∀ items : List PyVal, ∀ x ∈ normalize_dict_items items, ∃ sd, x = PyVal.dict sd
  | [], x, hx => by simp [normalize_dict_items] at hx
  | item :: rest, x, hx => by
      by_cases ht : pyTruthy item = true
      · cases item with
        | none => simp [pyTruthy] at ht
        | dict e =>
            simp only [normalize_dict_items, ht, if_true] at hx
            rcases List.mem_cons.mp hx with h | h
            · exact ⟨_, h⟩
            · exact normalize_dict_items_dicts rest x h
        | bool b =>
            simp only [normalize_dict_items, ht, if_true] at hx
            split at hx
            · exact normalize_dict_items_dicts rest x hx
            · rcases List.mem_cons.mp hx with h | h
              · exact ⟨_, h⟩
              · exact normalize_dict_items_dicts rest x h
        | int n =>
            simp only [normalize_dict_items, ht, if_true] at hx
            split at hx
            · exact normalize_dict_items_dicts rest x hx
            · rcases List.mem_cons.mp hx with h | h
              · exact ⟨_, h⟩
              · exact normalize_dict_items_dicts rest x h
        | str s =>
            simp only [normalize_dict_items, ht, if_true] at hx
            split at hx
            · exact normalize_dict_items_dicts rest x hx
            · rcases List.mem_cons.mp hx with h | h
              · exact ⟨_, h⟩
              · exact normalize_dict_items_dicts rest x h
        | list items =>
            simp only [normalize_dict_items, ht, if_true] at hx
            split at hx
            · exact normalize_dict_items_dicts rest x hx
            · rcases List.mem_cons.mp hx with h | h
              · exact ⟨_, h⟩
              · exact normalize_dict_items_dicts rest x h
        | tuple items =>
            simp only [normalize_dict_items, ht, if_true] at hx
            split at hx
            · exact normalize_dict_items_dicts rest x hx
            · rcases List.mem_cons.mp hx with h | h
              · exact ⟨_, h⟩
              · exact normalize_dict_items_dicts rest x h
      · simp only [normalize_dict_items] at hx
        rw [if_neg ht] at hx
        exact normalize_dict_items_dicts rest x hx

/-- `cite_update` only ever appends a dict to the sources. -/
theorem cite_update_sources (st : GuidelineState) (oc : Option String)
    (h : ∀ x ∈ st.sources, ∃ sd, x = PyVal.dict sd) :
    ∀ x ∈ (cite_update st oc).sources, ∃ sd, x = PyVal.dict sd := by
  cases oc with
  | none => exact h
  | some c =>
      intro x hx
      simp only [cite_update] at hx
      split at hx
      · simp only [List.mem_append] at hx
        rcases hx with hx | hx
        · exact h x hx
        · simp only [List.mem_singleton] at hx
          exact ⟨_, hx⟩
      · exact h x hx

/-- One guideline-loop iteration keeps the sources all-dict. -/
theorem guideline_line_step_sources (st : GuidelineState) (line : String)
    (h : ∀ x ∈ st.sources, ∃ sd, x = PyVal.dict sd) :
    ∀ x ∈ (guideline_line_step st line).sources, ∃ sd, x = PyVal.dict sd := by
  intro x hx
  simp only [guideline_line_step] at hx
  split at hx
  · exact h x hx
  · split at hx
    · exact cite_update_sources st _ h x hx
    · exact cite_update_sources st _ h x hx

/-- The guideline loop keeps the sources all-dict. -/
theorem guideline_fold_sources (items : List String) :
    ∀ st : GuidelineState,
      (∀ x ∈ st.sources, ∃ sd, x = PyVal.dict sd) →
      ∀ x ∈ (items.foldl guideline_line_step st).sources, ∃ sd, x = PyVal.dict sd := by
  induction items with
  | nil => intro st h; exact h
  | cons line rest ih =>
      intro st h
      exact ih _ (guideline_line_step_sources st line h)

/-- C1: the payload normalizer is total — this embedding of
`normalize_analysis_payload` is a total Lean function, and for every
input value whatsoever (including `None`, scalars, and dicts with
missing or wrongly-typed fields) the result is a dict with exactly the
five canonical keys, in which the first three fields are lists of
strings, `sources` is a list of dicts, and `disclaimer` is a string. -/
theorem normalize_payload_total_shape (data : PyVal) :
    ∃ (mf cdi pg : List String) (srcs : List PyVal) (disc : String),
      normalize_analysis_payload data
        = .dict [("maternal_feedback", .list (mf.map .str)),
                 ("child_development_insights", .list (cdi.map .str)),
                 ("parenting_guidelines", .list (pg.map .str)),
                 ("sources", .list srcs),
                 ("disclaimer", .str disc)]
      ∧ ∀ x ∈ srcs, ∃ sd, x = PyVal.dict sd := by
  cases data with
  | dict d =>
      refine ⟨_, _, _, _, _, rfl, ?_⟩
      exact guideline_fold_sources _ _ (normalize_dict_items_dicts _)
  | none =>
      exact ⟨[], [], [], [], DISCLAIMER, rfl,
        fun x hx => absurd hx (List.not_mem_nil x)⟩
  | bool b =>
      exact ⟨[pyStr (.bool b)], [], [], [], DISCLAIMER, rfl,
        fun x hx => absurd hx (List.not_mem_nil x)⟩
  | int n =>
      exact ⟨[pyStr (.int n)], [], [], [], DISCLAIMER, rfl,
        fun x hx => absurd hx (List.not_mem_nil x)⟩
  | str s =>
      exact ⟨[pyStr (.str s)], [], [], [], DISCLAIMER, rfl,
        fun x hx => absurd hx (List.not_mem_nil x)⟩
  | list items =>
      exact ⟨[pyStr (.list items)], [], [], [], DISCLAIMER, rfl,
        fun x hx => absurd hx (List.not_mem_nil x)⟩
  | tuple items =>
      exact ⟨[pyStr (.tuple items)], [], [], [], DISCLAIMER, rfl,
        fun x hx => absurd hx (List.not_mem_nil x)⟩

/-- Witness for C1 at a concrete malformed input (a nested list with
wrongly-typed fields). -/
theorem normalize_payload_total_shape_witness :
    ∃ (mf cdi pg : List String) (srcs : List PyVal) (disc : String),
      normalize_analysis_payload
          (.dict [("maternal_feedback", .int 7),
                  ("sources", .list [.list [.int 1], .str "t"]),
                  ("advice", .bool true)])
        = .dict [("maternal_feedback", .list (mf.map .str)),
                 ("child_development_insights", .list (cdi.map .str)),
                 ("parenting_guidelines", .list (pg.map .str)),
                 ("sources", .list srcs),
                 ("disclaimer", .str disc)]
      ∧ ∀ x ∈ srcs, ∃ sd, x = PyVal.dict sd :=
  normalize_payload_total_shape
    (.dict [("maternal_feedback", .int 7),
            ("sources", .list [.list [.int 1], .str "t"]),
            ("advice", .bool true)])

/-- A successful extraction means the text ended with `)`. -/
theorem etp_some_getLast (s pre par : String)
    (h : extract_trailing_parenthetical s = some (pre, par)) :
    s.data.getLast? = some ')' := by
  unfold extract_trailing_parenthetical at h
  split at h
  · assumption
  · exact absurd h (by simp)

/-- A string ending in `)` is non-empty. -/
theorem isEmpty_false_of_getLast (s : String) (h : s.data.getLast? = some ')') :
    s.isEmpty = false := by
  rw [Bool.eq_false_iff]
  intro he
  rw [String.isEmpty_iff] at he
  subst he
  simp at h

/-- C4: trailing-parenthetical extraction on guideline lines.  When the
stripped line carries a balanced trailing group whose inner text (after
stripping parens and blanks) is non-empty and unseen, the line is split:
the parenthetical's text is appended as a new `{"text": ...}` source and
trailing `;`, `,`, `.` and spaces are removed from the preceding text to
form the guideline.  A line without a balanced trailing group passes
through unchanged.  Concretely, `"do X (WHO, 2020)"` yields guideline
`"do X"` and source text `"WHO, 2020"`; `"value (a (b) c)"` yields
`"value"` and `"a (b) c"`; `"unbalanced (a"` passes through with no new
source. -/
theorem trailing_parenthetical_guideline :
    (∀ (st : GuidelineState) (line pre par : String),
      extract_trailing_parenthetical (pyStrip line) = some (pre, par) →
      ∀ inner, inner = stripSet parenStrip (pyStrip par) →
      inner.isEmpty = false →
      ∀ cite, cite = pyStrip inner → cite.isEmpty = false →
      st.sourceTexts.contains cite = false →
      ∀ finalText, finalText = pyStrip (rstripSet tailPunct pre) →
      finalText.isEmpty = false →
      guideline_line_step st line =
        ⟨st.guidelines ++ [finalText],
         st.sources ++ [.dict [("text", .str cite)]],
         st.sourceTexts ++ [cite]⟩)
    ∧ (∀ (st : GuidelineState) (line : String),
        extract_trailing_parenthetical (pyStrip line) = Option.none →
        (pyStrip line).isEmpty = false →
        guideline_line_step st line =
          ⟨st.guidelines ++ [pyStrip line], st.sources, st.sourceTexts⟩)
    ∧ (normalize_analysis_payload (.dict [("advice", .list [.str "do X (WHO, 2020)"])])
        = .dict [("maternal_feedback", .list []),
                 ("child_development_insights", .list []),
                 ("parenting_guidelines", .list [.str "do X"]),
                 ("sources", .list [.dict [("text", .str "WHO, 2020")]]),
                 ("disclaimer", .str DISCLAIMER)])
    ∧ (normalize_analysis_payload (.dict [("advice", .list [.str "value (a (b) c)"])])
        = .dict [("maternal_feedback", .list []),
                 ("child_development_insights", .list []),
                 ("parenting_guidelines", .list [.str "value"]),
                 ("sources", .list [.dict [("text", .str "a (b) c")]]),
                 ("disclaimer", .str DISCLAIMER)])
    ∧ (normalize_analysis_payload (.dict [("advice", .list [.str "unbalanced (a"])])
        = .dict [("maternal_feedback", .list []),
                 ("child_development_insights", .list []),
                 ("parenting_guidelines", .list [.str "unbalanced (a"]),
                 ("sources", .list []),
                 ("disclaimer", .str DISCLAIMER)]) := by
  refine ⟨?_, ?_, rfl, rfl, rfl⟩
  · intro st line pre par hetp inner hinner hinnerne cite hcite hcitene hnotin
      finalText hfinal hfinalne
    have ht0 : (pyStrip line).isEmpty = false :=
      isEmpty_false_of_getLast _ (etp_some_getLast _ _ _ hetp)
    have hsplit : guideline_split (pyStrip line) = (finalText, some inner) := by
      simp only [guideline_split, hetp, ← hinner, hinnerne, Bool.false_eq_true,
        if_false, hfinal]
    have hcu : cite_update st (some inner) =
        ⟨st.guidelines, st.sources ++ [.dict [("text", .str cite)]],
         st.sourceTexts ++ [cite]⟩ := by
      simp only [cite_update, ← hcite, hcitene, hnotin, Bool.not_false,
        Bool.and_self, if_true]
    simp only [guideline_line_step, ht0, Bool.false_eq_true, if_false, hsplit,
      hcu, hfinalne, Bool.not_false, if_true]
  · intro st line hetp ht0
    have hsplit : guideline_split (pyStrip line) = (pyStrip line, Option.none) := by
      simp only [guideline_split, hetp]
    simp only [guideline_line_step, ht0, Bool.false_eq_true, if_false, hsplit,
      cite_update, Bool.not_false, if_true]

/-- Witness for C4 on the concrete line `"do X (WHO, 2020)"` starting
from the empty state. -/
theorem trailing_parenthetical_guideline_witness :
    guideline_line_step ⟨[], [], []⟩ "do X (WHO, 2020)" =
      ⟨["do X"], [.dict [("text", .str "WHO, 2020")]], ["WHO, 2020"]⟩ :=
  trailing_parenthetical_guideline.1 ⟨[], [], []⟩ "do X (WHO, 2020)"
    "do X " "(WHO, 2020)" (by decide) "WHO, 2020" (by decide) (by decide)
    "WHO, 2020" (by decide) (by decide) (by decide)
    "do X" (by decide) (by decide)

/-- C6 (counterexample): when the new key is absent and `observations` is
present but empty, `child_development_insights` is derived from the
`evidence` items, not from the present `observations` key (which would
give `[]`). -/
theorem canonical_key_resolution_cex :
    normalize_analysis_payload
        (.dict [("observations", .list []),
                ("evidence", .list [.dict [("summary", .str "e")]])])
      = .dict [("maternal_feedback", .list []),
               ("child_development_insights", .list [.str "e"]),
               ("parenting_guidelines", .list []),
               ("sources", .list []),
               ("disclaimer", .str DISCLAIMER)]
    ∧ PyVal.list [.str "e"] ≠ PyVal.list [] := ⟨rfl, by simp⟩

/-- C6 (amended): canonical key resolution follows the stated precedence
per field — the new key is used whenever it is present (even holding a
null value), else the legacy key; for `child_development_insights`, when
the new key is absent the field is derived from `observations` whenever
that value coerces to a non-empty list, else from the
`summary`/`text`/`quote` field of each `evidence` item.  The legacy input
`{"observations": ["a"], "advice": ["do X (Org, 2019)"]}` normalizes as
the claim states. -/
theorem canonical_key_resolution_amended :
    (∀ (d : List (String × PyVal)) (v : PyVal),
      pyLookup d "maternal_feedback" = some v →
      analysisField (normalize_analysis_payload (.dict d)) "maternal_feedback"
        = strListVal (stripItems (normalize_analysis_list v)))
    ∧ (∀ d : List (String × PyVal),
        pyLookup d "maternal_feedback" = Option.none →
        analysisField (normalize_analysis_payload (.dict d)) "maternal_feedback"
          = strListVal (stripItems (normalize_analysis_list (pyGet d "observations"))))
    ∧ (∀ d : List (String × PyVal),
        pyHasKey d "child_development_insights" = true →
        analysisField (normalize_analysis_payload (.dict d)) "child_development_insights"
          = strListVal (stripItems
              (normalize_analysis_list (pyGet d "child_development_insights"))))
    ∧ (∀ d : List (String × PyVal),
        pyHasKey d "child_development_insights" = false →
        (normalize_analysis_list (pyGet d "observations")).isEmpty = false →
        analysisField (normalize_analysis_payload (.dict d)) "child_development_insights"
          = strListVal (stripItems (normalize_analysis_list (pyGet d "observations"))))
    ∧ (∀ d : List (String × PyVal),
        pyHasKey d "child_development_insights" = false →
        (normalize_analysis_list (pyGet d "observations")).isEmpty = true →
        analysisField (normalize_analysis_payload (.dict d)) "child_development_insights"
          = strListVal (evidenceTexts (normalize_analysis_list (pyGet d "evidence"))))
    ∧ (∀ (d : List (String × PyVal)) (v : PyVal),
        pyLookup d "parenting_guidelines" = some v →
        analysisField (normalize_analysis_payload (.dict d)) "parenting_guidelines"
          = strListVal ((rawGuidelineItems (normalize_analysis_list v)).foldl
              guideline_line_step
              ⟨[], normalize_dict_items
                     (normalize_analysis_list (pyGet2 d "sources" "citations")),
                  initialSourceTexts (normalize_dict_items
                     (normalize_analysis_list (pyGet2 d "sources" "citations")))⟩).guidelines)
    ∧ (normalize_analysis_payload
          (.dict [("observations", .list [.str "a"]),
                  ("advice", .list [.str "do X (Org, 2019)"])])
        = .dict [("maternal_feedback", .list [.str "a"]),
                 ("child_development_insights", .list [.str "a"]),
                 ("parenting_guidelines", .list [.str "do X"]),
                 ("sources", .list [.dict [("text", .str "Org, 2019")]]),
                 ("disclaimer", .str DISCLAIMER)]) := by
  refine ⟨?_, ?_, ?_, ?_, ?_, ?_, rfl⟩
  · intro d v h
    simp [analysisField, normalize_analysis_payload, pyGet, pyGet2, pyLookup, h]
  · intro d h
    simp [analysisField, normalize_analysis_payload, pyGet, pyGet2, pyLookup, h]
  · intro d h
    simp [analysisField, normalize_analysis_payload, pyGet, pyGet2, pyLookup, h]
  · intro d h hobs
    simp only [pyGet] at hobs
    simp [analysisField, normalize_analysis_payload, pyGet, pyGet2, pyLookup, h, hobs]
  · intro d h hobs
    simp only [pyGet] at hobs
    simp [analysisField, normalize_analysis_payload, pyGet, pyGet2, pyLookup, h, hobs]
  · intro d v h
    simp [analysisField, normalize_analysis_payload, pyGet, pyGet2, pyLookup, h]

/-- Witness for C6 (amended): a present `maternal_feedback` key wins over
a present legacy `observations` key. -/
theorem canonical_key_resolution_amended_witness :
    analysisField
        (normalize_analysis_payload
          (.dict [("maternal_feedback", .list [.str "new"]),
                  ("observations", .list [.str "old"])]))
        "maternal_feedback"
      = strListVal (stripItems (normalize_analysis_list (.list [.str "new"]))) :=
  canonical_key_resolution_amended.1
    [("maternal_feedback", .list [.str "new"]), ("observations", .list [.str "old"])]
    (.list [.str "new"]) rfl

/-- C2: when web search is effective and the Responses path (Protocol A)
raises, the orchestrator calls the Assistants path (Protocol B) exactly
once — the protocol trace is `[responses, assistants]`.  If B succeeds,
the audit record's metadata carries the fallback flag
(`fallback_from_responses = True`) and `web_search_enabled = False`.  If
B also fails, `request_analysis` surfaces that error in strict mode and
returns the canonical empty result (writing no audit record) in
best-effort mode. -/
theorem fallback_protocol_b
    (entries : List EntryRecord) (question : Option String)
    (use_web_search : Option Bool) (raise_on_failure : Bool)
    (metadata : Option (List (String × PyVal)))
    (webSearchFlag : Bool) (allowedDomains : List String)
    (e : HTTPError) (respB : Except HTTPError PyVal)
    (hne : entries ≠ [])
    (hws : use_ws_effective use_web_search webSearchFlag = true) :
    (request_analysis entries question use_web_search raise_on_failure metadata
        webSearchFlag allowedDomains (.error e) respB).calls
      = [.responses, .assistants]
    ∧ (∀ p, respB = .ok p →
        (request_analysis entries question use_web_search raise_on_failure metadata
            webSearchFlag allowedDomains (.error e) respB).persists
          = [⟨entries, effectiveQuestion question, p,
              buildMetaFallback metadata use_web_search⟩]
        ∧ pyLookup (buildMetaFallback metadata use_web_search)
            "fallback_from_responses" = some (.bool true)
        ∧ pyLookup (buildMetaFallback metadata use_web_search)
            "web_search_enabled" = some (.bool false))
    ∧ (∀ e₂, respB = .error e₂ →
        (raise_on_failure = true →
          (request_analysis entries question use_web_search raise_on_failure metadata
              webSearchFlag allowedDomains (.error e) respB).result = .error e₂)
        ∧ (raise_on_failure = false →
          (request_analysis entries question use_web_search raise_on_failure metadata
              webSearchFlag allowedDomains (.error e) respB).result = .ok emptyAnalysis
          ∧ (request_analysis entries question use_web_search raise_on_failure metadata
              webSearchFlag allowedDomains (.error e) respB).persists = [])) := by
  cases entries with
  | nil => exact absurd rfl hne
  | cons e₀ rest =>
      refine ⟨?_, ?_, ?_⟩
      · cases respB with
        | ok p => cases p <;> simp [request_analysis, hws] <;> split <;> rfl
        | error e₂ =>
            by_cases hr : raise_on_failure = true <;>
              simp [request_analysis, hws, hr]
      · intro p hp
        subst hp
        refine ⟨?_, pyLookup_dictSet_self _ _ _, ?_⟩
        · cases p <;> simp [request_analysis, hws] <;> split <;> rfl
        · simp only [buildMetaFallback]
          rw [pyLookup_dictSet_ne _ "fallback_from_responses" (.bool true)
            "web_search_enabled" (by decide)]
          cases use_web_search with
          | none => exact pyLookup_dictSet_self _ _ _
          | some b =>
              rw [pyLookup_dictSet_ne _ "user_web_search_override" (.bool b)
                "web_search_enabled" (by decide)]
              exact pyLookup_dictSet_self _ _ _
      · intro e₂ he
        subst he
        constructor
        · intro hr
          simp [request_analysis, hws, hr]
        · intro hr
          refine ⟨?_, ?_⟩ <;>
            simp [request_analysis, hws, hr, normalize_analysis_payload]

/-- Witness for C2: one entry, override on, Protocol A failing with a 502
and Protocol B succeeding — the trace is exactly one Responses call
followed by one Assistants call. -/
theorem fallback_protocol_b_witness :
    (request_analysis [⟨1, "2025-01-01", "joy", "b"⟩] Option.none (some true) true
        Option.none true [] (.error ⟨502, "boom"⟩) (.ok (.dict []))).calls
      = [.responses, .assistants] :=
  (fallback_protocol_b [⟨1, "2025-01-01", "joy", "b"⟩] Option.none (some true) true
    Option.none true [] ⟨502, "boom"⟩ (.ok (.dict [])) (by simp) rfl).1

theorem scanBal_nil : scanBal [] = 0 := by simp [scanBal]

theorem scanBal_cons_close (l : List Char) : scanBal (')' :: l) = scanBal l + 1 := by
  simp [scanBal, List.countP_cons]
  omega

theorem scanBal_cons_open (l : List Char) : scanBal ('(' :: l) = scanBal l - 1 := by
  simp [scanBal, List.countP_cons]
  omega

theorem scanBal_cons_other (c : Char) (l : List Char) (h₁ : ¬c = ')')
    (h₂ : ¬c = '(') : scanBal (c :: l) = scanBal l := by
  simp [scanBal, List.countP_cons, h₁, h₂]

/-- Success of the backward scan, characterised: starting at positive
depth `d`, a successful scan stops at an opening paren at offset `i`, the
depth `d` plus the net balance of the scanned segment is zero there, and
the running depth stays strictly positive before. -/
theorem etpScan_some (l : List Char) :
    ∀ (d : Int) (p j : Nat), 0 < d → etpScan l d p = some j →
      ∃ i : Nat, j = p + i ∧ i < l.length ∧ (l.drop i).head? = some '('
        ∧ d + scanBal (l.take (i + 1)) = 0
        ∧ ∀ k, k ≤ i → 0 < d + scanBal (l.take k) := by
  induction l with
  | nil => intro d p j hd h; simp [etpScan] at h
  | cons c rest ih =>
      intro d p j hd h
      by_cases hc : c = ')'
      · subst hc
        rw [show etpScan (')' :: rest) d p = etpScan rest (d + 1) (p + 1) from by
          simp [etpScan]] at h
        obtain ⟨i, hj, hlen, hget, hbal, hpos⟩ := ih (d + 1) (p + 1) j (by omega) h
        refine ⟨i + 1, by omega, by simpa using Nat.succ_lt_succ hlen, ?_, ?_, ?_⟩
        · simpa using hget
        · rw [List.take_succ_cons, scanBal_cons_close]
          omega
        · intro k hk
          cases k with
          | zero => simpa [scanBal_nil] using hd
          | succ k₀ =>
              have := hpos k₀ (by omega)
              rw [List.take_succ_cons, scanBal_cons_close]
              omega
      · by_cases hc₂ : c = '('
        · subst hc₂
          by_cases hd0 : d - 1 = 0
          · rw [show etpScan ('(' :: rest) d p = some p from by
              simp [etpScan, hd0]] at h
            obtain rfl : p = j := by simpa using h
            refine ⟨0, by omega, by simp, by simp, ?_, ?_⟩
            · rw [List.take_succ_cons, List.take_zero, scanBal_cons_open,
                scanBal_nil]
              omega
            · intro k hk
              obtain rfl : k = 0 := by omega
              simpa [scanBal_nil] using hd
          · by_cases hdneg : d - 1 < 0
            · exfalso; omega
            · rw [show etpScan ('(' :: rest) d p = etpScan rest (d - 1) (p + 1) from by
                simp [etpScan, hd0, hdneg]] at h
              obtain ⟨i, hj, hlen, hget, hbal, hpos⟩ :=
                ih (d - 1) (p + 1) j (by omega) h
              refine ⟨i + 1, by omega, by simpa using Nat.succ_lt_succ hlen, ?_, ?_, ?_⟩
              · simpa using hget
              · rw [List.take_succ_cons, scanBal_cons_open]
                omega
              · intro k hk
                cases k with
                | zero => simpa [scanBal_nil] using hd
                | succ k₀ =>
                    have := hpos k₀ (by omega)
                    rw [List.take_succ_cons, scanBal_cons_open]
                    omega
        · rw [show etpScan (c :: rest) d p = etpScan rest d (p + 1) from by
            simp [etpScan, hc, hc₂]] at h
          obtain ⟨i, hj, hlen, hget, hbal, hpos⟩ := ih d (p + 1) j hd h
          refine ⟨i + 1, by omega, by simpa using Nat.succ_lt_succ hlen, ?_, ?_, ?_⟩
          · simpa using hget
          · rw [List.take_succ_cons, scanBal_cons_other c _ hc hc₂]
            omega
          · intro k hk
            cases k with
            | zero => simpa [scanBal_nil] using hd
            | succ k₀ =>
                have := hpos k₀ (by omega)
                rw [List.take_succ_cons, scanBal_cons_other c _ hc hc₂]
                omega

/-- Failure of the backward scan from positive depth: the running depth
stays strictly positive over the whole list. -/
theorem etpScan_none (l : List Char) :
    ∀ (d : Int) (p : Nat), 0 < d → etpScan l d p = Option.none →
      ∀ k, k ≤ l.length → 0 < d + scanBal (l.take k) := by
  induction l with
  | nil =>
      intro d p hd _ k hk
      obtain rfl : k = 0 := by simpa using hk
      simpa [scanBal_nil] using hd
  | cons c rest ih =>
      intro d p hd h k hk
      by_cases hc : c = ')'
      · subst hc
        rw [show etpScan (')' :: rest) d p = etpScan rest (d + 1) (p + 1) from by
          simp [etpScan]] at h
        cases k with
        | zero => simpa [scanBal_nil] using hd
        | succ k₀ =>
            have := ih (d + 1) (p + 1) (by omega) h k₀ (by simpa using hk)
            rw [List.take_succ_cons, scanBal_cons_close]
            omega
      · by_cases hc₂ : c = '('
        · subst hc₂
          by_cases hd0 : d - 1 = 0
          · rw [show etpScan ('(' :: rest) d p = some p from by
              simp [etpScan, hd0]] at h
            exact absurd h (by simp)
          · by_cases hdneg : d - 1 < 0
            · exfalso; omega
            · rw [show etpScan ('(' :: rest) d p = etpScan rest (d - 1) (p + 1) from by
                simp [etpScan, hd0, hdneg]] at h
              cases k with
              | zero => simpa [scanBal_nil] using hd
              | succ k₀ =>
                  have := ih (d - 1) (p + 1) (by omega) h k₀ (by simpa using hk)
                  rw [List.take_succ_cons, scanBal_cons_open]
                  omega
        · rw [show etpScan (c :: rest) d p = etpScan rest d (p + 1) from by
            simp [etpScan, hc, hc₂]] at h
          cases k with
          | zero => simpa [scanBal_nil] using hd
          | succ k₀ =>
              have := ih d (p + 1) hd h k₀ (by simpa using hk)
              rw [List.take_succ_cons, scanBal_cons_other c _ hc hc₂]
              omega

/-- C10: whenever `extract_trailing_parenthetical` returns a pair, the
decomposition is lossless and well-formed — the two parts concatenate to
the original string, the parenthetical begins with `(` and ends with `)`,
and the backward depth scan over it stays strictly positive until it
returns to zero exactly at the group's opening paren.  When it returns
nothing, either the string does not end with `)` or no balanced trailing
group exists at any position. -/
theorem etp_sound (s : String) :
    (∀ pre par, extract_trailing_parenthetical s = some (pre, par) →
      pre ++ par = s
      ∧ par.data.head? = some '('
      ∧ par.data.getLast? = some ')'
      ∧ BalancedTrailing par.data.reverse)
    ∧ (extract_trailing_parenthetical s = Option.none →
        s.data.getLast? ≠ some ')'
        ∨ ∀ i, i < s.data.length →
            ¬((s.data.drop i).head? = some '('
              ∧ BalancedTrailing (s.data.drop i).reverse)) := by
  constructor
  · intro pre par h
    unfold extract_trailing_parenthetical at h
    split at h
    case isFalse => exact absurd h (by simp)
    case isTrue hcond =>
      obtain ⟨rest, hrcs⟩ : ∃ rest, s.data.reverse = ')' :: rest := by
        cases hr : s.data.reverse with
        | nil =>
            exfalso
            have hh := List.head?_reverse s.data
            rw [hr, hcond] at hh
            simp at hh
        | cons c rest =>
            have hh := List.head?_reverse s.data
            rw [hr, hcond] at hh
            simp at hh
            subst hh
            exact ⟨rest, rfl⟩
      rw [hrcs] at h
      rw [show etpScan (')' :: rest) 0 0 = etpScan rest 1 1 from by
        simp [etpScan]] at h
      cases hscan : etpScan rest 1 1 with
      | none => rw [hscan] at h; exact absurd h (by simp)
      | some pos =>
          rw [hscan] at h
          simp only [Option.some.injEq, Prod.mk.injEq] at h
          obtain ⟨hpre, hpar⟩ := h
          obtain ⟨i, hji, hilen, hget, hbal, hpos⟩ :=
            etpScan_some rest 1 1 pos (by norm_num) hscan
          have hji' : pos = i + 1 := by omega
          have hlen : s.data.length = rest.length + 1 := by
            have hc := congrArg List.length hrcs
            simpa using hc
          have hposlt : pos < s.data.length := by omega
          subst hpre hpar
          have hrevdrop :
              (s.data.drop (s.data.length - 1 - pos)).reverse
                = ')' :: rest.take (i + 1) := by
            rw [List.reverse_drop, hrcs]
            rw [show s.data.length - (s.data.length - 1 - pos) = pos + 1 by omega]
            rw [List.take_succ_cons, hji']
          refine ⟨?_, ?_, ?_, ?_⟩
          · show (⟨s.data.take (s.data.length - 1 - pos)⟩ : String)
              ++ ⟨s.data.drop (s.data.length - 1 - pos)⟩ = s
            have happ : (⟨s.data.take (s.data.length - 1 - pos)⟩ : String)
                ++ ⟨s.data.drop (s.data.length - 1 - pos)⟩
                = ⟨s.data.take (s.data.length - 1 - pos)
                    ++ s.data.drop (s.data.length - 1 - pos)⟩ := rfl
            rw [happ, List.take_append_drop]
          · show (s.data.drop (s.data.length - 1 - pos)).head? = some '('
            have hrest : rest[i]? = some '(' := by
              rw [← List.head?_drop]; exact hget
            have h1 := List.getElem?_reverse hposlt
            rw [hrcs, hji', List.getElem?_cons_succ, hrest] at h1
            rw [List.head?_drop, hji']
            exact h1.symm
          · show (s.data.drop (s.data.length - 1 - pos)).getLast? = some ')'
            rw [List.getLast?_eq_head?_reverse, hrevdrop]
            simp
          · show BalancedTrailing (s.data.drop (s.data.length - 1 - pos)).reverse
            rw [hrevdrop]
            constructor
            · rw [scanBal_cons_close]; omega
            · intro k hk0 hklen
              have hlen2 : (')' :: rest.take (i + 1)).length = i + 2 := by
                simp [List.length_take]; omega
              cases k with
              | zero => omega
              | succ k₀ =>
                  have hkle : k₀ ≤ i := by omega
                  rw [List.take_succ_cons]
                  rw [show (rest.take (i + 1)).take k₀ = rest.take k₀ from by
                    rw [List.take_take]; congr 1; omega]
                  rw [scanBal_cons_close]
                  have := hpos k₀ hkle
                  omega
  · intro h
    unfold extract_trailing_parenthetical at h
    split at h
    case isFalse hcond => exact Or.inl hcond
    case isTrue hcond =>
      right
      obtain ⟨rest, hrcs⟩ : ∃ rest, s.data.reverse = ')' :: rest := by
        cases hr : s.data.reverse with
        | nil =>
            exfalso
            have hh := List.head?_reverse s.data
            rw [hr, hcond] at hh
            simp at hh
        | cons c rest =>
            have hh := List.head?_reverse s.data
            rw [hr, hcond] at hh
            simp at hh
            subst hh
            exact ⟨rest, rfl⟩
      rw [hrcs] at h
      rw [show etpScan (')' :: rest) 0 0 = etpScan rest 1 1 from by
        simp [etpScan]] at h
      cases hscan : etpScan rest 1 1 with
      | some pos => rw [hscan] at h; exact absurd h (by simp)
      | none =>
          have hall := etpScan_none rest 1 1 (by norm_num) hscan
          have hlen : s.data.length = rest.length + 1 := by
            have hc := congrArg List.length hrcs
            simpa using hc
          intro i hi hcontra
          obtain ⟨hhead, hbal0, hpos⟩ := hcontra
          have hrevdrop : (s.data.drop i).reverse
              = ')' :: rest.take (s.data.length - i - 1) := by
            have hm : s.data.length - i = (s.data.length - i - 1) + 1 := by omega
            rw [List.reverse_drop, hrcs]
            conv_lhs => rw [hm]
            rw [List.take_succ_cons]
          rw [hrevdrop] at hbal0
          rw [scanBal_cons_close] at hbal0
          have := hall (s.data.length - i - 1) (by omega)
          omega

/-- Witness for C10 on the concrete input `"do X (WHO, 2020)"`. -/
theorem etp_sound_witness :
    "do X " ++ "(WHO, 2020)" = "do X (WHO, 2020)"
    ∧ "(WHO, 2020)".data.head? = some '('
    ∧ "(WHO, 2020)".data.getLast? = some ')'
    ∧ BalancedTrailing "(WHO, 2020)".data.reverse :=
  (etp_sound "do X (WHO, 2020)").1 "do X " "(WHO, 2020)" (by decide)
